import Mathlib

/-!
Verification of the contact-capture pipeline (`capture.py`).

Text is modelled as `List Char` (named `Str`), so that Python slicing
(`s[:n]`, `s[n:]`) becomes `List.take` / `List.drop`.  Python truthiness of
strings and of optional (nullable) string fields is modelled explicitly:
`None` and the empty string are both falsy.  Every definition in the
`Capture` namespace is translated from the corresponding function of
`capture.py`; external services (Telegram, Anthropic, Apollo, Exa, Notion)
are oracles carried by an `Env` record, one per processed message.
-/

namespace Capture

/-- Python strings, modelled as lists of characters. -/
abbrev Str := List Char

/-- Python truthiness of a string: non-empty. -/
def pyTruthy (s : Str) : Bool := !s.isEmpty

/-- Python truthiness of a nullable string (`None` and `""` are falsy). -/
def pyTruthyOpt (o : Option Str) : Bool :=
  match o with
  | some s => pyTruthy s
  | none => false

/-- `a or d` for a nullable string `a` and a string default `d`:
Python returns `d` when `a` is `None` or empty. -/
def pyOrS (o : Option Str) (d : Str) : Str :=
  match o with
  | some s => if s.isEmpty then d else s
  | none => d

/-- Python `str.startswith(p)`. -/
def pyStartsWith (p s : Str) : Prop := s.take p.length = p

instance (p s : Str) : Decidable (pyStartsWith p s) := by
  unfold pyStartsWith; infer_instance

/-- Python whitespace characters recognised by `str.strip()`. -/
def isPySpace (c : Char) : Bool :=
  c = ' ' || c = '\t' || c = '\n' || c = '\r' || c = '\x0b' || c = '\x0c'

/-- Left strip by a character predicate. -/
def lstripP (p : Char → Bool) (s : Str) : Str := s.dropWhile p

/-- Right strip by a character predicate. -/
def rstripP (p : Char → Bool) (s : Str) : Str := (s.reverse.dropWhile p).reverse

/-- Python `str.strip()` (whitespace on both sides). -/
def pyStrip (s : Str) : Str := rstripP isPySpace (lstripP isPySpace s)

/-! ## Research gatherer (`exa_research`, capture.py lines 222-271) -/

/-- One raw search result as returned by the Exa API: the code reads the
`title`, `url` and `text` keys with `r.get(key, "")`, so each key may be
absent (`none`). -/
structure ExaRaw where
  title : Option Str
  url : Option Str
  text : Option Str
deriving DecidableEq, Repr

/-- One deduplicated evidence item, as appended by `exa_research`:
`{"title": r.get("title",""), "url": url, "text": r.get("text","")}` where
`url = r.get("url", "")`. -/
structure EvidenceItem where
  title : Str
  url : Str
  text : Str
deriving DecidableEq, Repr

/-- The dedup key of a raw result: `r.get("url", "")`. -/
def exaKeyOf (r : ExaRaw) : Str := r.url.getD []

/-- The evidence item built from a raw result. -/
def toItem (r : ExaRaw) : EvidenceItem :=
  { title := r.title.getD [], url := exaKeyOf r, text := r.text.getD [] }

/-- The inner loop of `exa_research`: walk one query's result list,
skipping results whose url was already seen, otherwise recording the url
as seen and appending the evidence item (lines 256-264). -/
def addResults (seen : List Str) (acc : List EvidenceItem) :
    List ExaRaw → List Str × List EvidenceItem
  | [] => (seen, acc)
  | r :: rs =>
    let url := exaKeyOf r
    if url ∈ seen then addResults seen acc rs
    else addResults (url :: seen) (acc ++ [toItem r]) rs

/-! ## Structured data model -/

/-- The structured record extracted by Claude (`parse_contact` schema,
lines 153-164).  The JSON contract makes every field nullable; a missing
key and a `null` value behave identically in all the code that consumes
the record, so both are modelled as `none`. -/
structure ParsedContact where
  name : Option Str
  company : Option Str
  title : Option Str
  email : Option Str
  phone : Option Str
  event : Option Str
  context : Option Str
  follow_up : Option Str
  search_company_domain : Option Str
deriving DecidableEq, Repr

/-- Shape of the value returned by `json.loads` on the extraction
response: parse failure, a valid JSON value that is not an object, or an
object (read as a `ParsedContact`). -/
inductive JsonOutcome where
  | malformed
  | nonObject
  | object (p : ParsedContact)
deriving DecidableEq, Repr

/-- The `organization` sub-object of an Apollo person. -/
structure ApolloOrg where
  name : Option Str
  website_url : Option Str
deriving DecidableEq, Repr

/-- One person record in an Apollo search response. -/
structure ApolloPerson where
  name : Option Str
  title : Option Str
  email : Option Str
  linkedin_url : Option Str
  city : Option Str
  state : Option Str
  country : Option Str
  organization : Option ApolloOrg
deriving DecidableEq, Repr

/-- The normalised enrichment record built by `enrich_with_apollo`
(lines 205-217). -/
structure Enriched where
  name : Option Str
  title : Option Str
  email : Option Str
  linkedin_url : Option Str
  company : Option Str
  company_website : Option Str
  city : Option Str
  state : Option Str
  country : Option Str
deriving DecidableEq, Repr

/-- Lines 205-217: `org = p.get("organization") or {}` then flatten. -/
def normPerson (p : ApolloPerson) : Enriched :=
  let org := p.organization.getD { name := none, website_url := none }
  { name := p.name
    title := p.title
    email := p.email
    linkedin_url := p.linkedin_url
    company := org.name
    company_website := org.website_url
    city := p.city
    state := p.state
    country := p.country }

/-- Per-message oracle outcomes for the external services.  Each field
models the response of one network call made while processing a single
message; `Except.error` models a raised transport exception. -/
structure Env where
  /-- `message.content[0].text` of the extraction call in `parse_contact`. -/
  parseResp : Str
  /-- Shape of `json.loads` applied to the fence-stripped response text. -/
  jsonOf : Str → JsonOutcome
  /-- Outcome of downloading and OCR-ing a business-card photo. -/
  cardText : Except Unit Str
  /-- Outcome of downloading and transcribing a voice note. -/
  transcript : Except Unit Str
  /-- Apollo search response: status code and `people` list. -/
  apolloResp : Except Unit (Nat × List ApolloPerson)
  /-- Exa search response for the `i`-th issued query: status and results. -/
  exaResp : Nat → Except Unit (Nat × List ExaRaw)
  /-- Outcome of the dossier-synthesis call. -/
  dossier : Except Unit Str
  /-- Outcome of the Notion page-creation call (`ok url`). -/
  notionResp : Except Unit Str
  /-- The UTC processing date (`Date Met`). -/
  today : Str

/-- The capture bot's configuration: which credentials are present and the
allow-listed chat id (`TELEGRAM_CHAT_ID`, an environment string). -/
structure Config where
  telegramChatId : Option Str
  openaiKey : Bool
  exaKey : Bool
  apolloKey : Bool

/-- The literal piece of every string used by the program is declared as a
named constant so theorems can mention it. -/
def spaceS : Str := " ".data

/-- Suffix of the broader second Exa query (line 231). -/
def exaSuffixS : Str := " interview OR keynote OR article OR LinkedIn".data

/-- Lines 228-233: the 1-2 issued queries, depending on company truthiness. -/
def exaQueries (name : Str) (company : Option Str) : List Str :=
  if pyTruthyOpt company then
    [name ++ spaceS ++ company.getD [],
     name ++ spaceS ++ company.getD [] ++ exaSuffixS]
  else [name]

/-- The raw results one query contributes to the merge loop: its result
list when the call succeeded with status 200, nothing otherwise (a failed
or non-200 query is logged and contributes zero results, lines 255-268). -/
def exaFetch (env : Env) (i : Nat) : List ExaRaw :=
  match env.exaResp i with
  | .ok (status, rs) => if status = 200 then rs else []
  | .error _ => []

/-- The outer loop of `exa_research` over the issued queries (lines
238-268), threading the seen-url set and the accumulated items. -/
def exaLoop (env : Env) : Nat → List Str → List Str → List EvidenceItem → List EvidenceItem
  | _, [], _, acc => acc
  | i, _q :: rest, seen, acc =>
    let sa := addResults seen acc (exaFetch env i)
    exaLoop env (i + 1) rest sa.1 sa.2

/-- `exa_research(name, company)`, lines 222-271.  Without an Exa key the
function returns `[]` immediately. -/
def exa_research (cfg : Config) (env : Env) (name : Str) (company : Option Str) :
    List EvidenceItem :=
  if cfg.exaKey then exaLoop env 0 (exaQueries name company) [] [] else []

/-- All raw results the merge loop iterates over, concatenated in
issuance order (query order, then per-query rank), starting the oracle
index at `i`. -/
def fetchCat (env : Env) : Nat → List Str → List ExaRaw
  | _, [] => []
  | i, _q :: rest => exaFetch env i ++ fetchCat env (i + 1) rest

/-- The full issuance-ordered raw result sequence of one research run. -/
def issuedResults (cfg : Config) (env : Env) (name : Str) (company : Option Str) :
    List ExaRaw :=
  if cfg.exaKey then fetchCat env 0 (exaQueries name company) else []

/-! ### First-occurrence deduplication, extracted for reasoning -/

/-- Keep the first occurrence of each url key, given an initial seen set. -/
def dedupRaw (seen : List Str) : List ExaRaw → List ExaRaw
  | [] => []
  | r :: rs =>
    if exaKeyOf r ∈ seen then dedupRaw seen rs
    else r :: dedupRaw (exaKeyOf r :: seen) rs

/-- The seen set after scanning a result list. -/
def seenAfter (seen : List Str) : List ExaRaw → List Str
  | [] => seen
  | r :: rs =>
    if exaKeyOf r ∈ seen then seenAfter seen rs
    else seenAfter (exaKeyOf r :: seen) rs

theorem addResults_eq (rs : List ExaRaw) : ∀ seen acc,
    addResults seen acc rs = (seenAfter seen rs, acc ++ (dedupRaw seen rs).map toItem) := by
  induction rs with
  | nil => intro seen acc; simp [addResults, seenAfter, dedupRaw]
  | cons r rs ih =>
    intro seen acc
    by_cases h : exaKeyOf r ∈ seen
    · simp [addResults, seenAfter, dedupRaw, h, ih]
    · simp [addResults, seenAfter, dedupRaw, h, ih]

theorem dedupRaw_append (xs : List ExaRaw) : ∀ seen ys,
    dedupRaw seen (xs ++ ys) = dedupRaw seen xs ++ dedupRaw (seenAfter seen xs) ys := by
  induction xs with
  | nil => intro seen ys; simp [dedupRaw, seenAfter]
  | cons x xs ih =>
    intro seen ys
    by_cases h : exaKeyOf x ∈ seen
    · simp [dedupRaw, seenAfter, h, ih]
    · simp [dedupRaw, seenAfter, h, ih]

theorem exaLoop_eq (env : Env) (qs : List Str) : ∀ i seen acc,
    exaLoop env i qs seen acc = acc ++ (dedupRaw seen (fetchCat env i qs)).map toItem := by
  induction qs with
  | nil => intro i seen acc; simp [exaLoop, fetchCat, dedupRaw]
  | cons q rest ih =>
    intro i seen acc
    rw [exaLoop, addResults_eq]
    rw [ih, fetchCat, dedupRaw_append]
    simp

/-- `exa_research` is exactly first-occurrence url deduplication of the
issuance-ordered raw results. -/
theorem exa_research_eq (cfg : Config) (env : Env) (name : Str) (company : Option Str) :
    exa_research cfg env name company =
      (dedupRaw [] (issuedResults cfg env name company)).map toItem := by
  by_cases h : cfg.exaKey
  · simp [exa_research, issuedResults, h, exaLoop_eq]
  · simp [exa_research, issuedResults, h, dedupRaw]

theorem key_not_in_seen_of_mem_dedupRaw (rs : List ExaRaw) :
    ∀ seen r, r ∈ dedupRaw seen rs → exaKeyOf r ∉ seen := by
  induction rs with
  | nil => intro seen r h; simp [dedupRaw] at h
  | cons x xs ih =>
    intro seen r h
    by_cases hx : exaKeyOf x ∈ seen
    · rw [dedupRaw, if_pos hx] at h
      exact ih seen r h
    · rw [dedupRaw, if_neg hx] at h
      rcases List.mem_cons.mp h with rfl | h
      · exact hx
      · intro hs
        exact ih _ r h (List.mem_cons_of_mem _ hs)

theorem nodup_keys_dedupRaw (rs : List ExaRaw) :
    ∀ seen, ((dedupRaw seen rs).map exaKeyOf).Nodup := by
  induction rs with
  | nil => intro seen; simp [dedupRaw]
  | cons x xs ih =>
    intro seen
    by_cases hx : exaKeyOf x ∈ seen
    · rw [dedupRaw, if_pos hx]; exact ih seen
    · rw [dedupRaw, if_neg hx]
      refine List.nodup_cons.mpr ⟨?_, ih _⟩
      intro hmem
      rcases List.mem_map.mp hmem with ⟨r, hr, hkey⟩
      exact key_not_in_seen_of_mem_dedupRaw xs _ r hr (hkey ▸ List.mem_cons_self _ _)

theorem filter_dedupRaw_of_mem (rs : List ExaRaw) : ∀ seen u, u ∈ seen →
    (dedupRaw seen rs).filter (fun r => exaKeyOf r = u) = [] := by
  intro seen u hu
  refine List.filter_eq_nil_iff.mpr ?_
  intro r hr
  simp only [decide_eq_true_eq]
  intro heq
  exact key_not_in_seen_of_mem_dedupRaw rs seen r hr (heq ▸ hu)

theorem filter_dedupRaw (rs : List ExaRaw) : ∀ seen u, u ∉ seen →
    (dedupRaw seen rs).filter (fun r => exaKeyOf r = u) =
      (rs.filter (fun r => exaKeyOf r = u)).take 1 := by
  induction rs with
  | nil => intro seen u _; simp [dedupRaw]
  | cons x xs ih =>
    intro seen u hu
    by_cases hx : exaKeyOf x ∈ seen
    · rw [dedupRaw, if_pos hx]
      have hne : ¬ exaKeyOf x = u := fun h => hu (h ▸ hx)
      rw [List.filter_cons_of_neg (by simpa using hne)]
      exact ih seen u hu
    · rw [dedupRaw, if_neg hx]
      by_cases hxu : exaKeyOf x = u
      · rw [List.filter_cons_of_pos (by simpa using hxu),
          List.filter_cons_of_pos (by simpa using hxu)]
        rw [filter_dedupRaw_of_mem xs _ u (hxu ▸ List.mem_cons_self _ _)]
        simp
      · rw [List.filter_cons_of_neg (by simpa using hxu),
          List.filter_cons_of_neg (by simpa using hxu)]
        refine ih _ u ?_
        intro h
        rcases List.mem_cons.mp h with h' | h'
        · exact hxu h'.symm
        · exact hu h'

theorem dedupRaw_sublist (rs : List ExaRaw) : ∀ seen, (dedupRaw seen rs).Sublist rs := by
  induction rs with
  | nil => intro seen; simp [dedupRaw]
  | cons x xs ih =>
    intro seen
    by_cases hx : exaKeyOf x ∈ seen
    · rw [dedupRaw, if_pos hx]
      exact (ih seen).cons x
    · rw [dedupRaw, if_neg hx]
      exact (ih _).cons₂ x

/-- The urls of the returned evidence items are pairwise distinct. -/
theorem exa_research_urls_nodup (cfg : Config) (env : Env) (name : Str)
    (company : Option Str) :
    ((exa_research cfg env name company).map EvidenceItem.url).Nodup := by
  have h : (exa_research cfg env name company).map EvidenceItem.url =
      (dedupRaw [] (issuedResults cfg env name company)).map exaKeyOf := by
    rw [exa_research_eq, List.map_map]; rfl
  rw [h]
  exact nodup_keys_dedupRaw _ []

/-- For every url, the output retains exactly the first issuance-ordered
result carrying it. -/
theorem exa_research_filter_key (cfg : Config) (env : Env) (name : Str)
    (company : Option Str) (u : Str) :
    (exa_research cfg env name company).filter (fun it => it.url = u) =
      (((issuedResults cfg env name company).map toItem).filter
        (fun it => it.url = u)).take 1 := by
  rw [exa_research_eq, List.filter_map, List.filter_map]
  have hcomp : ((fun it : EvidenceItem => decide (it.url = u)) ∘ toItem) =
      fun r : ExaRaw => decide (exaKeyOf r = u) := rfl
  rw [hcomp]
  rw [filter_dedupRaw _ [] u (by simp), List.map_take]

/-- The output is a subsequence of the issuance-ordered items. -/
theorem exa_research_sublist (cfg : Config) (env : Env) (name : Str)
    (company : Option Str) :
    (exa_research cfg env name company).Sublist
      ((issuedResults cfg env name company).map toItem) := by
  rw [exa_research_eq]
  exact (dedupRaw_sublist _ []).map toItem

/-- C5: the evidence sequence returned by `exa_research` has no two items
with the same url; for a url occurring several times across the issued
queries, the retained item is the first in issuance order (earliest query,
then lowest rank), and the output preserves issuance order. -/
theorem C5_research_dedup (cfg : Config) (env : Env) (name : Str)
    (company : Option Str) :
    ((exa_research cfg env name company).map EvidenceItem.url).Nodup ∧
    (∀ u : Str, (exa_research cfg env name company).filter (fun it => it.url = u) =
      (((issuedResults cfg env name company).map toItem).filter
        (fun it => it.url = u)).take 1) ∧
    (exa_research cfg env name company).Sublist
      ((issuedResults cfg env name company).map toItem) :=
  ⟨exa_research_urls_nodup cfg env name company,
   fun u => exa_research_filter_key cfg env name company u,
   exa_research_sublist cfg env name company⟩

/-! ### C10: empty-url deduplication -/

/-- A default environment for concrete counterexamples: every external
call fails. -/
def envDefault : Env :=
  { parseResp := []
    jsonOf := fun _ => .malformed
    cardText := .error ()
    transcript := .error ()
    apolloResp := .error ()
    exaResp := fun _ => .error ()
    dossier := .error ()
    notionResp := .error ()
    today := [] }

/-- Configuration with only the Exa capability enabled. -/
def cfgExaOnly : Config :=
  { telegramChatId := none, openaiKey := false, exaKey := true, apolloKey := false }

def cexName10 : Str := "Jane Doe".data

/-- A result whose url key is explicitly the empty string. -/
def cexR1 : ExaRaw := { title := some ("dup page one".data), url := some [], text := some [] }

/-- A result lacking the url key entirely. -/
def cexR2 : ExaRaw := { title := some ("dup page two".data), url := none, text := some [] }

/-- Environment in which the single issued query returns the explicit
empty-url result before the url-less result. -/
def envC10 : Env := { envDefault with exaResp := fun _ => .ok (200, [cexR1, cexR2]) }

/-- C10 counterexample: `cexR2` is the only result of the run lacking a
url field, yet its item is not retained — an earlier result with an
explicitly empty url already claimed the empty dedup key.  This refutes
"among all results lacking a url field, only the earliest is retained". -/
theorem C10_counterexample :
    cexR2.url = none ∧
    (∀ r ∈ issuedResults cfgExaOnly envC10 cexName10 none, r.url = none → r = cexR2) ∧
    toItem cexR2 ∉ exa_research cfgExaOnly envC10 cexName10 none := by
  decide

/-- C10 (amended): deduplication keys a result by its url with a missing
url read as the empty string, so at most one output item has an empty
url, and among all results whose url key is empty — whether the field is
missing or explicitly the empty string — only the earliest issuance-
ordered one is retained and every later one is dropped. -/
theorem C10_empty_url_dedup (cfg : Config) (env : Env) (name : Str)
    (company : Option Str) :
    (∀ r : ExaRaw, (toItem r).url = exaKeyOf r) ∧
    (exa_research cfg env name company).countP (fun it => it.url = []) ≤ 1 ∧
    (exa_research cfg env name company).filter (fun it => it.url = []) =
      (((issuedResults cfg env name company).map toItem).filter
        (fun it => it.url = [])).take 1 := by
  refine ⟨fun r => rfl, ?_, exa_research_filter_key cfg env name company []⟩
  rw [List.countP_eq_length_filter, exa_research_filter_key cfg env name company []]
  exact le_trans (List.length_take_le 1 _) (le_refl 1)

/-! ## Notion block rendering (capture.py lines 330-415)

Rich-text runs and blocks.  A plain run carries `bold := false` (the code
emits no `annotations` key for it). -/

structure RichRun where
  content : Str
  bold : Bool
deriving DecidableEq, Repr

inductive Block where
  | paragraph (runs : List RichRun)
  | heading2 (text : Str)
  | heading3 (text : Str)
  | bulleted (runs : List RichRun)
  | divider
deriving DecidableEq, Repr

/-- `_notion_paragraph` (lines 330-340), with an explicit fuel argument to
keep the recursion structural: each iteration consumes 2000 characters of
a non-empty text, so `text.length` steps always suffice and the
fuel-exhausted branch is never reached by `notion_paragraph`. -/
def notionParagraphF : Nat → Str → List Block
  | _, [] => []
  | 0, _ => []
  | fuel + 1, text =>
    Block.paragraph [{ content := text.take 2000, bold := false }] ::
      notionParagraphF fuel (text.drop 2000)

/-- `_notion_paragraph(text)`: split `text` into paragraph blocks of at
most 2000 characters each. -/
def notion_paragraph (text : Str) : List Block := notionParagraphF text.length text

/-! ### `_parse_rich_text` (lines 351-367)

The code splits on the regex `(\*\*.*?\*\*)`.  A match is a leftmost
occurrence of `**`, a shortest following stretch of non-newline
characters, and a closing `**`.  `findCloseNoNl` finds the first closing
`**` without crossing a newline; `startBold` attempts a match anchored at
the current position; `findOpen` scans left to right for the leftmost
anchored match, exactly as the regex engine does. -/

def starsTwo : Str := ['*', '*']

def findCloseNoNl : Str → Option (Str × Str)
  | [] => none
  | c :: rest =>
    if c = '*' ∧ rest.take 1 = ['*'] then some ([], rest.drop 1)
    else if c = '\n' then none
    else (findCloseNoNl rest).map (fun pr => (c :: pr.1, pr.2))

def startBold (s : Str) : Option (Str × Str) :=
  if s.take 2 = starsTwo then
    match findCloseNoNl (s.drop 2) with
    | some pr => some ('*' :: '*' :: (pr.1 ++ starsTwo), pr.2)
    | none => none
  else none

def findOpen : Str → Option (Str × Str × Str)
  | [] => none
  | c :: cs =>
    match startBold (c :: cs) with
    | some mr => some ([], mr.1, mr.2)
    | none =>
      match findOpen cs with
      | some pmr => some (c :: pmr.1, pmr.2.1, pmr.2.2)
      | none => none

/-- The parts produced by `re.split(r'(\*\*.*?\*\*)', text)`: the plain
text before each match, the match itself, and finally the plain tail.
Fuel-structural; one unit of fuel per match, and every match consumes at
least four characters, so `s.length` units always suffice. -/
def splitBoldF : Nat → Str → List Str
  | 0, s => [s]
  | fuel + 1, s =>
    match findOpen s with
    | none => [s]
    | some (pre, m, rest) => pre :: m :: splitBoldF fuel rest

def splitBold (s : Str) : List Str := splitBoldF s.length s

/-- Python `part[2:-2]`. -/
def pySlice2m2 (p : Str) : Str := ((p.drop 2).dropLast).dropLast

/-- The loop body of `_parse_rich_text` over the regex parts (lines
355-366): empty parts are skipped; a part that starts and ends with `**`
yields a bold run of its interior truncated to 2000 characters (skipped
when the interior is empty); any other part yields a plain run truncated
to 2000 characters. -/
def segsOf : List Str → List RichRun
  | [] => []
  | part :: rest =>
    if part.isEmpty then segsOf rest
    else if part.take 2 = starsTwo ∧ part.drop (part.length - 2) = starsTwo then
      if (pySlice2m2 part).isEmpty then segsOf rest
      else { content := (pySlice2m2 part).take 2000, bold := true } :: segsOf rest
    else { content := part.take 2000, bold := false } :: segsOf rest

/-- `_parse_rich_text(text)` (line 367 returns a single empty run when no
segment survived). -/
def parse_rich_text (text : Str) : List RichRun :=
  let segments := segsOf (splitBold text)
  if segments.isEmpty then [{ content := [], bold := false }] else segments

/-! ### `_markdown_to_notion_blocks` (lines 370-415) -/

/-- Python `markdown_text.split('\n')`. -/
def splitNl : Str → List Str
  | [] => [[]]
  | c :: rest =>
    if c = '\n' then [] :: splitNl rest
    else
      match splitNl rest with
      | l :: ls => (c :: l) :: ls
      | [] => [[c]]

/-- Python `s.strip('* ')`. -/
def stripStarSpace (s : Str) : Str :=
  rstripP (fun c => c = '*' || c = ' ') (lstripP (fun c => c = '*' || c = ' ') s)

/-- Python `s.rstrip(':')`. -/
def rstripColon (s : Str) : Str := rstripP (fun c => c = ':') s

/-- `re.match(r'^\*\*[^*]+\*\*\s*$', stripped)` for an already
whitespace-stripped line: the line is `**`, a non-empty star-free
interior, and a final `**` (the trailing `\s*` must be empty because the
line is stripped). -/
def boldHeadingMatch (s : Str) : Prop :=
  5 ≤ s.length ∧ s.take 2 = starsTwo ∧ s.drop (s.length - 2) = starsTwo ∧
    '*' ∉ pySlice2m2 s

instance (s : Str) : Decidable (boldHeadingMatch s) := by
  unfold boldHeadingMatch; infer_instance

def hashSpS : Str := "# ".data
def hash2SpS : Str := "## ".data
def dashSpS : Str := "- ".data
def starSpS : Str := "* ".data

/-- The block(s) contributed by one markdown line (the body of the `for`
loop of `_markdown_to_notion_blocks`, lines 373-413), applied to the
already `strip()`-ed line. -/
def strippedLineBlocks (stripped : Str) : List Block :=
  if stripped.isEmpty then []
  else if pyStartsWith hashSpS stripped then
    [Block.heading2 ((pyStrip (stripped.drop 2)).take 2000)]
  else if pyStartsWith hash2SpS stripped then
    [Block.heading3 ((pyStrip (stripped.drop 3)).take 2000)]
  else if boldHeadingMatch stripped then
    [Block.heading3 ((rstripColon (stripStarSpace stripped)).take 2000)]
  else if pyStartsWith dashSpS stripped ∨ pyStartsWith starSpS stripped then
    [Block.bulleted (parse_rich_text (pyStrip (stripped.drop 2)))]
  else
    [Block.paragraph (parse_rich_text stripped)]

/-- One iteration of the line loop: `stripped = line.strip()` first. -/
def lineBlocks (line : Str) : List Block := strippedLineBlocks (pyStrip line)

/-- `_markdown_to_notion_blocks(markdown_text)`. -/
def md_to_blocks (t : Str) : List Block := ((splitNl t).map lineBlocks).flatten

/-! ### Flattening the text back out of runs and blocks -/

def flattenRuns (rs : List RichRun) : Str := (rs.map RichRun.content).flatten

def blockText : Block → Str
  | .paragraph runs => flattenRuns runs
  | .heading2 t => t
  | .heading3 t => t
  | .bulleted runs => flattenRuns runs
  | .divider => []

def flattenBlocks (bs : List Block) : Str := (bs.map blockText).flatten

/-! ### The content that survives markdown-to-blocks conversion.

These definitions describe, line by line and regex part by regex part,
exactly which characters of a dossier text reach the rendered blocks;
they are the reference against which the flattening theorems compare the
converter. -/

/-- Characters of one regex part that survive `_parse_rich_text`: an
empty part contributes nothing; a part that starts and ends with `**`
contributes its interior truncated to 2000 characters (so nothing when
the interior is empty); any other part contributes itself truncated to
2000 characters. -/
def partText (p : Str) : Str :=
  if p.isEmpty then []
  else if p.take 2 = starsTwo ∧ p.drop (p.length - 2) = starsTwo then
    (pySlice2m2 p).take 2000
  else p.take 2000

/-- Characters of an inline-markdown string that survive as run text. -/
def richText (s : Str) : Str := ((splitBold s).map partText).flatten

/-- Characters of one (already stripped) markdown line that survive:
blank lines vanish; heading lines keep their marker-stripped,
re-stripped text; standalone bold lines keep their text with stars,
spaces and trailing colons stripped; bullet and paragraph lines keep
their inline rich-text content; every retained piece is truncated to
2000 characters. -/
def strippedLineText (stripped : Str) : Str :=
  if stripped.isEmpty then []
  else if pyStartsWith hashSpS stripped then (pyStrip (stripped.drop 2)).take 2000
  else if pyStartsWith hash2SpS stripped then (pyStrip (stripped.drop 3)).take 2000
  else if boldHeadingMatch stripped then (rstripColon (stripStarSpace stripped)).take 2000
  else if pyStartsWith dashSpS stripped ∨ pyStartsWith starSpS stripped then
    richText (pyStrip (stripped.drop 2))
  else richText stripped

def lineText (line : Str) : Str := strippedLineText (pyStrip line)

/-- Characters of a whole dossier that survive: per line, newlines and
blank lines dropped. -/
def mdText (t : Str) : Str := ((splitNl t).map lineText).flatten

/-! ### Flattening lemmas -/

theorem flattenBlocks_append (a b : List Block) :
    flattenBlocks (a ++ b) = flattenBlocks a ++ flattenBlocks b := by
  simp [flattenBlocks]

theorem flattenRuns_segsOf (parts : List Str) :
    flattenRuns (segsOf parts) = (parts.map partText).flatten := by
  induction parts with
  | nil => rfl
  | cons p rest ih =>
    have ih' : (List.map RichRun.content (segsOf rest)).flatten =
        (rest.map partText).flatten := ih
    by_cases h1 : p.isEmpty
    · have hp : p = [] := List.isEmpty_iff.mp h1
      simp [segsOf, partText, h1, ih, hp]
    · by_cases h2 : p.take 2 = starsTwo ∧ p.drop (p.length - 2) = starsTwo
      · by_cases h3 : (pySlice2m2 p).isEmpty
        · have hc : pySlice2m2 p = [] := List.isEmpty_iff.mp h3
          simp [segsOf, partText, h1, h2, h3, ih, hc]
        · simp [segsOf, partText, h1, h2, h3, flattenRuns, ih']
      · simp [segsOf, partText, h1, h2, flattenRuns, ih']

theorem flattenRuns_parse_rich_text (s : Str) :
    flattenRuns (parse_rich_text s) = richText s := by
  have hs := flattenRuns_segsOf (splitBold s)
  by_cases h : (segsOf (splitBold s)).isEmpty
  · have h' : segsOf (splitBold s) = [] := List.isEmpty_iff.mp h
    rw [h'] at hs
    simp [parse_rich_text, richText, h, ← hs, flattenRuns]
  · simp [parse_rich_text, richText, h, ← hs]

theorem flattenBlocks_lineBlocks (l : Str) :
    flattenBlocks (lineBlocks l) = lineText l := by
  unfold lineBlocks lineText strippedLineBlocks strippedLineText
  split_ifs <;>
    simp [flattenBlocks, blockText, flattenRuns_parse_rich_text]

/-- C4 (amended): flattening the blocks of a converted dossier yields
exactly the per-line surviving content `mdText`. -/
theorem C4_blocks_flatten_to_surviving (t : Str) :
    flattenBlocks (md_to_blocks t) = mdText t := by
  unfold md_to_blocks mdText
  generalize splitNl t = ls
  induction ls with
  | nil => rfl
  | cons l ls ih =>
    simp only [List.map_cons, List.flatten_cons, flattenBlocks_append,
      flattenBlocks_lineBlocks, ih]

def cexC4 : Str := "**Note:**".data

/-- C4 counterexample: on the standalone bold heading line `**Note:**`,
conversion emits the heading text `Note` — the trailing colon, a content
character that is none of the markdown punctuation characters, is
dropped.  So concatenating the runs does not recover the original text
minus markdown punctuation. -/
theorem C4_counterexample :
    flattenBlocks (md_to_blocks cexC4) = "Note".data ∧
    ':' ∈ cexC4 ∧ ':' ∉ flattenBlocks (md_to_blocks cexC4) ∧
    ':' ∉ ['#', '-', '*'] := by
  decide

/-! ### C1: run splitting and truncation -/

theorem notionParagraphF_succ_cons (f : Nat) (c : Char) (cs : Str) :
    notionParagraphF (f + 1) (c :: cs) =
      Block.paragraph [{ content := (c :: cs).take 2000, bold := false }] ::
        notionParagraphF f ((c :: cs).drop 2000) := rfl

theorem notionParagraphF_flatten : ∀ (f : Nat) (s : Str), s.length ≤ f →
    flattenBlocks (notionParagraphF f s) = s := by
  intro f
  induction f with
  | zero =>
    intro s hs
    have : s = [] := List.length_eq_zero.mp (Nat.le_zero.mp hs)
    subst this; rfl
  | succ f ih =>
    intro s hs
    cases s with
    | nil => rfl
    | cons c cs =>
      have hlen : ((c :: cs).drop 2000).length ≤ f := by
        rw [List.length_drop]
        have : (c :: cs).length ≤ f + 1 := hs
        have hpos : 1 ≤ (c :: cs).length := by simp
        omega
      calc flattenBlocks (notionParagraphF (f + 1) (c :: cs))
          = (c :: cs).take 2000 ++
              flattenBlocks (notionParagraphF f ((c :: cs).drop 2000)) := by
            simp [notionParagraphF, flattenBlocks, blockText, flattenRuns]
        _ = (c :: cs).take 2000 ++ (c :: cs).drop 2000 := by rw [ih _ hlen]
        _ = c :: cs := List.take_append_drop _ _

theorem notionParagraphF_le : ∀ (f : Nat) (s : Str) (b : Block),
    b ∈ notionParagraphF f s → (blockText b).length ≤ 2000 := by
  intro f
  induction f with
  | zero =>
    intro s b hb
    cases s <;> simp [notionParagraphF] at hb
  | succ f ih =>
    intro s b hb
    cases s with
    | nil => simp [notionParagraphF] at hb
    | cons c cs =>
      rw [notionParagraphF_succ_cons] at hb
      rcases List.mem_cons.mp hb with rfl | hb
      · simp [blockText, flattenRuns, List.length_take]
      · exact ih _ b hb

theorem notionParagraphF_paragraph : ∀ (f : Nat) (s : Str) (b : Block),
    b ∈ notionParagraphF f s → ∃ runs, b = Block.paragraph runs := by
  intro f
  induction f with
  | zero =>
    intro s b hb
    cases s <;> simp [notionParagraphF] at hb
  | succ f ih =>
    intro s b hb
    cases s with
    | nil => simp [notionParagraphF] at hb
    | cons c cs =>
      rw [notionParagraphF_succ_cons] at hb
      rcases List.mem_cons.mp hb with rfl | hb
      · exact ⟨_, rfl⟩
      · exact ih _ b hb

theorem segsOf_le (parts : List Str) : ∀ r ∈ segsOf parts, r.content.length ≤ 2000 := by
  induction parts with
  | nil => intro r hr; simp [segsOf] at hr
  | cons p rest ih =>
    intro r hr
    by_cases h1 : p.isEmpty
    · rw [segsOf, if_pos h1] at hr; exact ih r hr
    · by_cases h2 : p.take 2 = starsTwo ∧ p.drop (p.length - 2) = starsTwo
      · by_cases h3 : (pySlice2m2 p).isEmpty
        · rw [segsOf, if_neg h1, if_pos h2, if_pos h3] at hr; exact ih r hr
        · rw [segsOf, if_neg h1, if_pos h2, if_neg h3] at hr
          rcases List.mem_cons.mp hr with rfl | hr
          · simp [List.length_take]
          · exact ih r hr
      · rw [segsOf, if_neg h1, if_neg h2] at hr
        rcases List.mem_cons.mp hr with rfl | hr
        · simp [List.length_take]
        · exact ih r hr

theorem parse_rich_text_le (s : Str) : ∀ r ∈ parse_rich_text s, r.content.length ≤ 2000 := by
  intro r hr
  unfold parse_rich_text at hr
  by_cases h : (segsOf (splitBold s)).isEmpty
  · rw [if_pos h] at hr
    rcases List.mem_singleton.mp hr with rfl
    simp
  · rw [if_neg h] at hr
    exact segsOf_le _ r hr

/-- C1 (amended): `_notion_paragraph` splits its text into consecutive
paragraph blocks whose run texts are each at most 2000 characters long
and concatenate, in order, back to the original text exactly.
`_parse_rich_text` also caps every emitted run at 2000 characters, but by
truncation (`part[:2000]`): segment content beyond 2000 characters is
dropped, not carried into a further run. -/
theorem C1_split_and_truncate (t : Str) :
    flattenBlocks (notion_paragraph t) = t ∧
    (∀ b ∈ notion_paragraph t, (blockText b).length ≤ 2000) ∧
    (∀ r ∈ parse_rich_text t, r.content.length ≤ 2000) :=
  ⟨notionParagraphF_flatten t.length t le_rfl,
   fun b hb => notionParagraphF_le t.length t b hb,
   parse_rich_text_le t⟩

theorem findOpen_eq_none (s : Str) (hs : '*' ∉ s) : findOpen s = none := by
  induction s with
  | nil => rfl
  | cons c cs ih =>
    have hc : c ≠ '*' := fun h => hs (h ▸ List.mem_cons_self _ _)
    have hcs : '*' ∉ cs := fun h => hs (List.mem_cons_of_mem _ h)
    have hsb : startBold (c :: cs) = none := by
      unfold startBold
      rw [if_neg]
      intro h
      have h2 : (c :: cs).take 2 = c :: cs.take 1 := rfl
      rw [h2] at h
      simp only [starsTwo, List.cons.injEq] at h
      exact hc h.1
    simp [findOpen, hsb, ih hcs]

theorem splitBoldF_succ (f : Nat) (s : Str) :
    splitBoldF (f + 1) s =
      (match findOpen s with
       | none => [s]
       | some (pre, m, rest) => pre :: m :: splitBoldF f rest) := rfl

theorem splitBold_no_star (s : Str) (hs : '*' ∉ s) : splitBold s = [s] := by
  unfold splitBold
  cases s.length with
  | zero => rfl
  | succ n => rw [splitBoldF_succ, findOpen_eq_none s hs]

def cexC1 : Str := List.replicate 2001 'a'

/-- C1 counterexample: on a 2001-character plain segment,
`_parse_rich_text` emits a single run truncated to 2000 characters, so
concatenating its runs does not reconstruct the original text — the
claim's "split, never drop" property fails for `_parse_rich_text`. -/
theorem C1_counterexample :
    2000 < cexC1.length ∧ flattenRuns (parse_rich_text cexC1) ≠ cexC1 := by
  have hlen2001 : cexC1.length = 2001 := by
    rw [cexC1, List.length_replicate]
  constructor
  · omega
  · have hstar : '*' ∉ cexC1 := by
      rw [cexC1]
      intro h
      exact absurd (List.eq_of_mem_replicate h) (by decide)
    have hsplit := splitBold_no_star cexC1 hstar
    have hne : ¬ cexC1.isEmpty := by
      intro h
      have h' : cexC1 = [] := List.isEmpty_iff.mp h
      rw [h'] at hlen2001
      simp at hlen2001
    have htk : cexC1.take 2 = List.replicate 2 'a' := by
      rw [cexC1, List.take_replicate]; norm_num
    have hcond : ¬ (cexC1.take 2 = starsTwo ∧
        cexC1.drop (cexC1.length - 2) = starsTwo) := by
      intro h
      rw [htk] at h
      exact absurd h.1 (by decide)
    have hparse : parse_rich_text cexC1 =
        [{ content := cexC1.take 2000, bold := false }] := by
      unfold parse_rich_text
      rw [hsplit, segsOf, if_neg hne, if_neg hcond]
      simp [segsOf]
    rw [hparse]
    intro hcontra
    simp only [flattenRuns, List.map_cons, List.map_nil, List.flatten_cons,
      List.flatten_nil, List.append_nil] at hcontra
    have hlen := congrArg List.length hcontra
    rw [List.length_take, cexC1, List.length_replicate] at hlen
    omega

/-! ## Record writer (`create_notion_contact`, capture.py lines 418-498) -/

def unknownContactS : Str := "Unknown Contact".data
def statusNewS : Str := "New".data
def hDossierS : Str := "Dossier".data
def hMeetingNotesS : Str := "Meeting Notes".data
def hMetAtS : Str := "Met At".data
def hFollowUpS : Str := "Suggested Follow-Up".data
def hRawNoteS : Str := "Raw Note".data
def hApolloDataS : Str := "Apollo Data".data
def titleLabelS : Str := "Title: ".data
def emailLabelS : Str := "Email: ".data
def linkedinLabelS : Str := "LinkedIn: ".data
def siteLabelS : Str := "Company site: ".data
def locLabelS : Str := "Location: ".data
def commaSpS : Str := ", ".data
def nlS : Str := "\n".data

/-- `_notion_heading(text)`: a heading_3 block. -/
def notionHeading (t : Str) : Block := Block.heading3 t

/-- The typed properties of the created page (lines 418-441).  `Email`
and `LinkedIn` are omitted (`none`) rather than set empty. -/
structure NotionProps where
  name : Str
  company : Str
  title : Str
  dateMet : Str
  source : Str
  status : Str
  apolloEnriched : Bool
  email : Option Str
  linkedin : Option Str
deriving DecidableEq, Repr

/-- Lines 420-441: note line 420 reads only `parsed.get("name")` — the
enriched record's name is not consulted for the `Name` property. -/
def notionProps (parsed : ParsedContact) (enriched : Option Enriched)
    (source today : Str) : NotionProps :=
  let name := pyOrS parsed.name unknownContactS
  let title := pyOrS (enriched.bind Enriched.title) (pyOrS parsed.title [])
  let company := pyOrS (enriched.bind Enriched.company) (pyOrS parsed.company [])
  let email := pyOrS (enriched.bind Enriched.email) (pyOrS parsed.email [])
  let linkedin := pyOrS (enriched.bind Enriched.linkedin_url) []
  { name := name
    company := company
    title := title
    dateMet := today
    source := source
    status := statusNewS
    apolloEnriched := enriched.isSome
    email := if email.isEmpty then none else some email
    linkedin := if linkedin.isEmpty then none else some linkedin }

/-- Body segment for the dossier (lines 445-450). -/
def dossierSeg (dossier : Option Str) : List Block :=
  if pyTruthyOpt dossier then
    notionHeading hDossierS :: (md_to_blocks (dossier.getD []) ++ [Block.divider])
  else []

/-- Body segment for the meeting notes (lines 452-454). -/
def meetingSeg (parsed : ParsedContact) : List Block :=
  if pyTruthyOpt parsed.context then
    notionHeading hMeetingNotesS :: notion_paragraph (parsed.context.getD [])
  else []

/-- Body segment for the event (lines 456-458). -/
def metAtSeg (parsed : ParsedContact) : List Block :=
  if pyTruthyOpt parsed.event then
    notionHeading hMetAtS :: notion_paragraph (parsed.event.getD [])
  else []

/-- Body segment for the follow-up suggestion (lines 460-462): rendered
only when a follow-up was parsed AND no dossier exists. -/
def followUpSeg (parsed : ParsedContact) (dossier : Option Str) : List Block :=
  if pyTruthyOpt parsed.follow_up && !pyTruthyOpt dossier then
    notionHeading hFollowUpS :: notion_paragraph (parsed.follow_up.getD [])
  else []

/-- Body segment for the raw note (lines 464-465, unconditional). -/
def rawSeg (raw : Str) : List Block :=
  notionHeading hRawNoteS :: notion_paragraph raw

/-- The truthy location components (line 478). -/
def locParts (e : Enriched) : List Str :=
  [e.city, e.state, e.country].filterMap fun o =>
    match o with
    | some s => if s.isEmpty then none else some s
    | none => none

/-- The `Apollo Data` lines (lines 469-480), in fixed order. -/
def apolloLines (e : Enriched) : List Str :=
  (if pyTruthyOpt e.title then [titleLabelS ++ e.title.getD []] else []) ++
  (if pyTruthyOpt e.email then [emailLabelS ++ e.email.getD []] else []) ++
  (if pyTruthyOpt e.linkedin_url then [linkedinLabelS ++ e.linkedin_url.getD []] else []) ++
  (if pyTruthyOpt e.company_website then [siteLabelS ++ e.company_website.getD []] else []) ++
  (if (locParts e).isEmpty then []
   else [locLabelS ++ List.intercalate commaSpS (locParts e)])

/-- Body segment for the enrichment data (lines 467-482). -/
def apolloSeg (enriched : Option Enriched) : List Block :=
  match enriched with
  | none => []
  | some e =>
    notionHeading hApolloDataS ::
      (if (apolloLines e).isEmpty then []
       else notion_paragraph (List.intercalate nlS (apolloLines e)))

/-- The ordered body of the created page (lines 443-482). -/
def notionChildren (parsed : ParsedContact) (enriched : Option Enriched)
    (raw : Str) (dossier : Option Str) : List Block :=
  dossierSeg dossier ++ meetingSeg parsed ++ metAtSeg parsed ++
    followUpSeg parsed dossier ++ rawSeg raw ++ apolloSeg enriched

/-! ### C2: property fallbacks -/

theorem pyOrS_eq_ite (o : Option Str) (d : Str) :
    pyOrS o d = if pyTruthyOpt o then o.getD [] else d := by
  cases o with
  | none => rfl
  | some s =>
    by_cases h : s.isEmpty
    · simp [pyOrS, pyTruthyOpt, pyTruthy, h]
    · simp [pyOrS, pyTruthyOpt, pyTruthy, h]

/-- Modelled from the claim's words: the `Name` fallback the claim
asserts, falling back through the enriched name, then the parsed name,
then the literal `Unknown Contact`. -/
def claimNameFallback (enriched : Option Enriched) (parsed : ParsedContact) : Str :=
  pyOrS (enriched.bind Enriched.name) (pyOrS parsed.name unknownContactS)

/-- An extracted record with every field absent. -/
def emptyParsed : ParsedContact :=
  { name := none, company := none, title := none, email := none, phone := none,
    event := none, context := none, follow_up := none, search_company_domain := none }

/-- An enrichment record carrying only a name. -/
def cexEnrAlice : Enriched :=
  { name := some ("Alice Example".data), title := none, email := none,
    linkedin_url := none, company := none, company_website := none,
    city := none, state := none, country := none }

def srcTextS : Str := "Text".data
def todayS : Str := "2026-10-12".data

/-- C2 counterexample: with no parsed name but an enriched name, the
persisted `Name` property is `Unknown Contact`, not the enriched name the
claimed fallback chain would produce — the enriched name is never
consulted. -/
theorem C2_counterexample :
    (notionProps emptyParsed (some cexEnrAlice) srcTextS todayS).name = unknownContactS ∧
    claimNameFallback (some cexEnrAlice) emptyParsed = "Alice Example".data ∧
    unknownContactS ≠ "Alice Example".data := by
  decide

/-- C2 (amended): the `Name` property falls back through the parsed name
then `"Unknown Contact"` — the enriched name is not consulted — while
`Company` and `Title` fall back enriched value → parsed value → empty
string; a field counts as present when it holds a non-empty value (a
`null` and an empty string both fall through, as in Python truthiness). -/
theorem C2_property_fallbacks (parsed : ParsedContact) (enriched : Option Enriched)
    (source today : Str) :
    (notionProps parsed enriched source today).name =
      (if pyTruthyOpt parsed.name then parsed.name.getD [] else unknownContactS) ∧
    (notionProps parsed enriched source today).company =
      (if pyTruthyOpt (enriched.bind Enriched.company) then (enriched.bind Enriched.company).getD []
       else if pyTruthyOpt parsed.company then parsed.company.getD [] else []) ∧
    (notionProps parsed enriched source today).title =
      (if pyTruthyOpt (enriched.bind Enriched.title) then (enriched.bind Enriched.title).getD []
       else if pyTruthyOpt parsed.title then parsed.title.getD [] else []) := by
  refine ⟨?_, ?_, ?_⟩ <;>
    simp only [notionProps, pyOrS_eq_ite]

/-! ### C6: dossier synthesis gate and the Suggested Follow-Up section -/

/-- The gate of pipeline step 4 (line 623): `if exa_results or enriched:`. -/
def synthCalled (exaResults : List EvidenceItem) (enriched : Option Enriched) : Bool :=
  !exaResults.isEmpty || enriched.isSome

/-- Pipeline step 4 (lines 621-629): `dossier` stays `None` unless the
gate holds; when it holds, the synthesis call's result is taken, and a
raised synthesis exception is caught (non-fatal), leaving `None`. -/
def dossierStage (env : Env) (exaResults : List EvidenceItem)
    (enriched : Option Enriched) : Option Str :=
  if synthCalled exaResults enriched then
    match env.dossier with
    | .ok d => some d
    | .error _ => none
  else none

/-- Does the block list contain a `heading_3` with the given text? -/
def containsHeading (h : Str) (bs : List Block) : Bool :=
  bs.any fun b =>
    match b with
    | Block.heading3 t => decide (t = h)
    | _ => false

theorem containsHeading_append (h : Str) (a b : List Block) :
    containsHeading h (a ++ b) = (containsHeading h a || containsHeading h b) := by
  simp [containsHeading]

theorem containsHeading_notionParagraphF (h : Str) (f : Nat) (s : Str) :
    containsHeading h (notionParagraphF f s) = false := by
  rw [containsHeading, List.any_eq_false]
  intro b hb
  rcases notionParagraphF_paragraph f s b hb with ⟨runs, rfl⟩
  simp

theorem containsHeading_followUp_meetingSeg (parsed : ParsedContact) :
    containsHeading hFollowUpS (meetingSeg parsed) = false := by
  unfold meetingSeg
  split_ifs with h
  · simp [containsHeading, notionHeading, notion_paragraph]
    constructor
    · decide
    · have := containsHeading_notionParagraphF hFollowUpS
        (parsed.context.getD []).length (parsed.context.getD [])
      rw [containsHeading, List.any_eq_false] at this
      intro b hb
      simpa using this b hb
  · rfl

theorem containsHeading_followUp_metAtSeg (parsed : ParsedContact) :
    containsHeading hFollowUpS (metAtSeg parsed) = false := by
  unfold metAtSeg
  split_ifs with h
  · simp [containsHeading, notionHeading, notion_paragraph]
    constructor
    · decide
    · have := containsHeading_notionParagraphF hFollowUpS
        (parsed.event.getD []).length (parsed.event.getD [])
      rw [containsHeading, List.any_eq_false] at this
      intro b hb
      simpa using this b hb
  · rfl

theorem containsHeading_followUp_rawSeg (raw : Str) :
    containsHeading hFollowUpS (rawSeg raw) = false := by
  unfold rawSeg
  simp [containsHeading, notionHeading, notion_paragraph]
  constructor
  · decide
  · have := containsHeading_notionParagraphF hFollowUpS raw.length raw
    rw [containsHeading, List.any_eq_false] at this
    intro b hb
    simpa using this b hb

theorem containsHeading_followUp_apolloSeg (enriched : Option Enriched) :
    containsHeading hFollowUpS (apolloSeg enriched) = false := by
  unfold apolloSeg
  cases enriched with
  | none => rfl
  | some e =>
    dsimp only
    split_ifs with h
    · simp [containsHeading, notionHeading]
      decide
    · simp [containsHeading, notionHeading, notion_paragraph]
      constructor
      · decide
      · have := containsHeading_notionParagraphF hFollowUpS
          (List.intercalate nlS (apolloLines e)).length
          (List.intercalate nlS (apolloLines e))
        rw [containsHeading, List.any_eq_false] at this
        intro b hb
        simpa using this b hb

theorem containsHeading_followUpSeg_none (parsed : ParsedContact) :
    containsHeading hFollowUpS (followUpSeg parsed none) = pyTruthyOpt parsed.follow_up := by
  unfold followUpSeg
  have : pyTruthyOpt (none : Option Str) = false := rfl
  rw [this]
  by_cases h : pyTruthyOpt parsed.follow_up
  · rw [h]
    simp [containsHeading, notionHeading]
  · simp only [h, Bool.false_and]
    rfl

/-- C6: dossier synthesis is invoked exactly when the enriched record is
present or the evidence list is non-empty (and then the dossier is
whatever the synthesis call produced, `None` if it raised); when no
dossier exists, the body contains the `Suggested Follow-Up` section
exactly when the parsed follow-up is present (holds a non-empty value),
and when a (non-empty) dossier exists the section is omitted. -/
theorem C6_dossier_gate_and_followup (env : Env) (parsed : ParsedContact)
    (enriched : Option Enriched) (exaResults : List EvidenceItem)
    (raw : Str) (dossier : Option Str) :
    (¬(enriched.isSome = true ∨ exaResults ≠ []) →
      dossierStage env exaResults enriched = none) ∧
    ((enriched.isSome = true ∨ exaResults ≠ []) →
      dossierStage env exaResults enriched =
        (match env.dossier with | .ok d => some d | .error _ => none)) ∧
    (dossier = none →
      containsHeading hFollowUpS (notionChildren parsed enriched raw dossier) =
        pyTruthyOpt parsed.follow_up) ∧
    (pyTruthyOpt dossier = true → followUpSeg parsed dossier = []) := by
  refine ⟨?_, ?_, ?_, ?_⟩
  · intro h
    push_neg at h
    have h1 : enriched.isSome = false := by
      cases he : enriched.isSome
      · rfl
      · exact absurd he h.1
    have h2 : exaResults = [] := h.2
    simp [dossierStage, synthCalled, h1, h2]
  · intro h
    have hg : synthCalled exaResults enriched = true := by
      rcases h with h | h
      · simp [synthCalled, h]
      · simp [synthCalled, List.isEmpty_iff, h]
    simp [dossierStage, hg]
  · intro hd
    subst hd
    have hds : dossierSeg none = [] := rfl
    rw [notionChildren, hds]
    simp only [List.nil_append, containsHeading_append,
      containsHeading_followUp_meetingSeg, containsHeading_followUp_metAtSeg,
      containsHeading_followUpSeg_none, containsHeading_followUp_rawSeg,
      containsHeading_followUp_apolloSeg, Bool.or_false, Bool.false_or]
  · intro hd
    simp [followUpSeg, hd]

/-- A parsed record carrying only a follow-up suggestion. -/
def wParsedFU : ParsedContact :=
  { emptyParsed with follow_up := some ("Send the case study".data) }

def wDossierS : Str := "**Background:** an example dossier".data

theorem C6_witness :
    dossierStage envDefault [] none = none ∧
    containsHeading hFollowUpS (notionChildren wParsedFU none [] none) =
      pyTruthyOpt wParsedFU.follow_up ∧
    followUpSeg wParsedFU (some wDossierS) = [] := by
  have h1 := C6_dossier_gate_and_followup envDefault wParsedFU none [] [] none
  have h2 := C6_dossier_gate_and_followup envDefault wParsedFU none [] [] (some wDossierS)
  exact ⟨h1.1 (by simp), h1.2.2.1 rfl, h2.2.2.2 (by decide)⟩

/-! ## Extraction (`parse_contact`, lines 138-173)

The defensive unwrapping of lines 170-172: strip the response, and if it
starts with a code fence (three backticks, built here from its character
code), drop the first line and everything from the last fence on, then
strip again.  `json.loads` itself is an oracle (`Env.jsonOf`). -/

def tickC : Char := Char.ofNat 96

/-- Three backticks, the markdown code fence. -/
def fence3 : Str := [tickC, tickC, tickC]

/-- Python `s.split("\n", 1)`: the first newline's position, if any. -/
def splitNlOnce : Str → Option (Str × Str)
  | [] => none
  | c :: rest =>
    if c = '\n' then some ([], rest)
    else (splitNlOnce rest).map fun pr => (c :: pr.1, pr.2)

/-- Does a fence occur anywhere in the string? -/
def hasFence : Str → Bool
  | [] => false
  | c :: rest => decide ((c :: rest).take 3 = fence3) || hasFence rest

/-- Python `s.rsplit("```", 1)[0]`: everything before the last fence
occurrence, or the whole string if there is none. -/
def rsplitPre : Str → Str
  | [] => []
  | c :: rest =>
    if hasFence rest then c :: rsplitPre rest
    else if (c :: rest).take 3 = fence3 then []
    else c :: rsplitPre rest

/-- Lines 170-172 applied to the stripped response text; `.error` models
the `IndexError` raised by `split("\n", 1)[1]` when a fenced response has
no newline at all. -/
def parse_strip (s : Str) : Except Unit Str :=
  if pyStartsWith fence3 s then
    match splitNlOnce s with
    | none => .error ()
    | some pr => .ok (pyStrip (rsplitPre pr.2))
  else .ok s

/-- `parse_contact` as observed by its caller: `.malformed` covers every
exception raised inside it (a `json.loads` failure or the fence
`IndexError`); `.nonObject` is a successful parse whose value is not a
JSON object; `.object p` is the extracted record. -/
def parse_contact (env : Env) : JsonOutcome :=
  match parse_strip (pyStrip env.parseResp) with
  | .error _ => .malformed
  | .ok t =>
    match env.jsonOf t with
    | .malformed => .malformed
    | .nonObject => .nonObject
    | .object p => .object p

/-! ## Enrichment (`enrich_with_apollo`, lines 178-217) -/

/-- `enrich_with_apollo(name, company_domain)`: without a key, `None`;
a raised transport exception propagates (`.error`); a non-200 status is
logged and treated as no match (`.ok none`); an empty `people` list is no
match; otherwise the first person is normalised.  The `name` and `domain`
arguments shape only the HTTP payload, which the oracle abstracts. -/
def enrich_with_apollo (cfg : Config) (env : Env) (_name : Str)
    (_domain : Option Str) : Except Unit (Option Enriched) :=
  if cfg.apolloKey = false then .ok none
  else
    match env.apolloResp with
    | .error _ => .error ()
    | .ok (status, people) =>
      if status ≠ 200 then .ok none
      else
        match people with
        | [] => .ok none
        | p :: _ => .ok (some (normPerson p))

/-! ## Pipeline orchestrator (`process_update` and `main`, lines 503-689) -/

structure TgMessage where
  chat : Option Int
  photo : Bool
  caption : Option Str
  voice : Bool
  text : Option Str
deriving DecidableEq, Repr

structure Update where
  update_id : Int
  message : Option TgMessage
deriving DecidableEq, Repr

/-- Observable effects of processing one message: outbound Telegram
sends and Notion page creations. -/
inductive Effect where
  | sent (chat : Int) (text : Str)
  | recordCreated (props : NotionProps) (children : List Block)
deriving DecidableEq, Repr

/-- Effects at the `main` level: per-message effects plus the batch
acknowledgment (`confirm_updates(offset)`). -/
inductive MainEffect where
  | msg (e : Effect)
  | ack (offset : Int)
deriving DecidableEq, Repr

def isAckE : MainEffect → Bool
  | .ack _ => true
  | .msg _ => false

def isRecordE : Effect → Bool
  | .recordCreated _ _ => true
  | _ => false

/-- Python `str(i)` for an int. -/
def intStr (i : Int) : Str := (toString i).data

def apoC : Char := Char.ofNat 39

def cmdStartS : Str := "/start".data
def cmdHelpS : Str := "/help".data
def slashS : Str := "/".data
def helpTextS : Str :=
  ("*Contact Capture Bot*\n\nSend me any of these:\n- A *text message* about someone you met\n- A *voice note* describing the person\n- A *photo of a business card*\n\nI").data
    ++ [apoC] ++ ("ll research them and create a dossier in Notion.\n\n_Example: Just met Joe Blogs from Kellogg").data
    ++ [apoC] ++ ("s, VP Marketing. Talked about their digital transformation program._").data
def voiceNeedS : Str := "Voice notes need OPENAI_API_KEY. Send text or a photo instead.".data
def transcribeFailS : Str :=
  "Couldn".data ++ [apoC] ++ "t transcribe that. Try again or send text.".data
def parseFailS : Str :=
  "Couldn".data ++ [apoC] ++ "t parse contact info. Try including a name and company.".data
/-- Line 638 interpolates the exception text; the model keeps the fixed
prefix. -/
def notionFailS : Str := "Parsed the contact but Notion write failed: ".data
def addCtxS : Str := "\nAdditional context: ".data
def srcCardS : Str := "Business Card".data
def srcVoiceS : Str := "Voice Note".data
def processingPreS : Str := "Processing: _".data
def ellipsisS : Str := "...".data
def underscoreS : Str := "_".data
def unknownS : Str := "Unknown".data
def emDashSepS : Str := " — ".data
def linkedinOpenS : Str := "[LinkedIn](".data
def closeParenS : Str := ")".data
def dossierReadyS : Str := "\nDossier ready in Notion".data
def noApolloS : Str := "(no Apollo match — manual lookup may be needed)".data
def nlUnderS : Str := "\n_".data
def openNotionS : Str := "\n[Open in Notion](".data
def starS : Str := "*".data

/-- Line 580-581: the processing notice with an 80-character preview. -/
def processingMsg (raw : Str) : Str :=
  processingPreS ++ (raw.take 80 ++ (if 80 < raw.length then ellipsisS else [])) ++ underscoreS

/-- The confirmation message of lines 642-664.  Line 642 uses
`parsed.get("name", "Unknown")`: a missing key yields `Unknown`; the
model treats a JSON `null` name the same way. -/
def confirmText (parsed : ParsedContact) (enriched : Option Enriched)
    (dossier : Option Str) (url : Str) : Str :=
  let name := parsed.name.getD unknownS
  let displayTitle := pyOrS (enriched.bind Enriched.title) (pyOrS parsed.title [])
  let line0 := (starS ++ name ++ starS) ++
    (if displayTitle.isEmpty then [] else emDashSepS ++ displayTitle)
  let ls :=
    [line0] ++
    (if pyTruthyOpt parsed.company then
      [underscoreS ++ parsed.company.getD [] ++ underscoreS] else []) ++
    (if enriched.isSome && pyTruthyOpt (enriched.bind Enriched.email) then
      [emailLabelS ++ (enriched.bind Enriched.email).getD []] else []) ++
    (if enriched.isSome && pyTruthyOpt (enriched.bind Enriched.linkedin_url) then
      [linkedinOpenS ++ (enriched.bind Enriched.linkedin_url).getD [] ++ closeParenS] else []) ++
    (if pyTruthyOpt dossier then [dossierReadyS]
     else if enriched.isNone then [noApolloS] else []) ++
    (if pyTruthyOpt parsed.follow_up then
      [nlUnderS ++ parsed.follow_up.getD [] ++ underscoreS] else []) ++
    [openNotionS ++ url ++ closeParenS]
  List.intercalate nlS ls

/-- Pipeline step 2 (lines 594-607): enrichment is attempted only when a
name was parsed; a raised enrichment exception is caught (non-fatal). -/
def enrichStage (cfg : Config) (env : Env) (parsed : ParsedContact) : Option Enriched :=
  if pyTruthyOpt parsed.name then
    match enrich_with_apollo cfg env (parsed.name.getD []) parsed.search_company_domain with
    | .ok e => e
    | .error _ => none
  else none

/-- Pipeline step 3 (lines 610-619): research only when a name was
parsed. -/
def exaStage (cfg : Config) (env : Env) (parsed : ParsedContact) : List EvidenceItem :=
  if pyTruthyOpt parsed.name then
    exa_research cfg env (parsed.name.getD []) parsed.company
  else []

/-- Steps 1-6 of the processing pipeline once the raw note is in hand
(lines 580-664).  The boolean is true when the message's processing
raised an uncaught exception; for a non-object extraction value the
uncaught `AttributeError` is raised by `parsed.get("name")` at line 595,
outside the `try` of step 1, so no apology is sent. -/
def runPipeline (cfg : Config) (env : Env) (chat : Int) (raw source : Str) :
    List Effect × Bool :=
  let eff0 := [Effect.sent chat (processingMsg raw)]
  match parse_contact env with
  | .malformed => (eff0 ++ [Effect.sent chat parseFailS], false)
  | .nonObject => (eff0, true)
  | .object parsed =>
    let enriched := enrichStage cfg env parsed
    let exaResults := exaStage cfg env parsed
    let dossier := dossierStage env exaResults enriched
    match env.notionResp with
    | .error _ => (eff0 ++ [Effect.sent chat notionFailS], false)
    | .ok url =>
      (eff0 ++
        [Effect.recordCreated (notionProps parsed enriched source env.today)
           (notionChildren parsed enriched raw dossier),
         Effect.sent chat (confirmText parsed enriched dossier url)], false)

/-- Outcome of resolving the raw note from the message payload. -/
inductive RawOutcome where
  | exit (effs : List Effect)
  | raised
  | note (raw : Str) (source : Str)
deriving DecidableEq, Repr

/-- Lines 518-577: payload dispatch.  Photo: card OCR plus optional
caption.  Voice: capability notice without a key, transcription
otherwise, with an empty transcription rejected.  Text: commands are
answered (or ignored) and other text becomes the raw note. -/
def resolveRaw (cfg : Config) (env : Env) (chat : Int) (m : TgMessage) : RawOutcome :=
  if m.photo then
    match env.cardText with
    | .error _ => .raised
    | .ok t =>
      let raw :=
        match m.caption with
        | some cap => if cap.isEmpty then t else t ++ addCtxS ++ cap
        | none => t
      .note raw srcCardS
  else if m.voice then
    if cfg.openaiKey = false then .exit [Effect.sent chat voiceNeedS]
    else
      match env.transcript with
      | .error _ => .raised
      | .ok t =>
        if t.isEmpty then .exit [Effect.sent chat transcribeFailS]
        else .note t srcVoiceS
  else
    match m.text with
    | some t =>
      if t.isEmpty then .exit []
      else if pyStartsWith slashS t then
        if pyStrip t = cmdStartS ∨ pyStrip t = cmdHelpS then .exit [Effect.sent chat helpTextS]
        else .exit []
      else .note t srcTextS
    | none => .exit []

/-- Line 511: `if TELEGRAM_CHAT_ID and str(chat_id) != str(TELEGRAM_CHAT_ID)`.
An unset or empty allow-list value is falsy, so it never blocks. -/
def blockedChat (cfg : Config) (chat : Int) : Bool :=
  pyTruthyOpt cfg.telegramChatId && decide (intStr chat ≠ cfg.telegramChatId.getD [])

/-- `process_update(update)` (lines 503-664): the effects performed and
whether an uncaught exception escaped. -/
def process_update (cfg : Config) (env : Env) (u : Update) : List Effect × Bool :=
  match u.message with
  | none => ([], false)
  | some m =>
    match m.chat with
    | none => ([], false)
    | some chat =>
      if chat = 0 then ([], false)
      else if blockedChat cfg chat then ([], false)
      else
        match resolveRaw cfg env chat m with
        | .exit effs => (effs, false)
        | .raised => ([], true)
        | .note raw source => runPipeline cfg env chat raw source

/-- The effects of attempting one update inside `main`'s loop: whatever
`process_update` performed before returning or raising (the per-message
`except` swallows the exception, line 682). -/
def attemptEffects (cfg : Config) (envOf : Update → Env) (u : Update) : List Effect :=
  (process_update cfg (envOf u) u).1

/-- `main()` (lines 667-689): on a non-empty batch, every update is
attempted in order and then `confirm_updates(last_id + 1)` runs exactly
once; an empty batch returns before acknowledging. -/
def mainRun (cfg : Config) (envOf : Update → Env) (updates : List Update) :
    List MainEffect :=
  match updates.getLast? with
  | none => []
  | some lastU =>
    ((updates.map (attemptEffects cfg envOf)).flatten).map MainEffect.msg ++
      [MainEffect.ack (lastU.update_id + 1)]

/-! ### C3: batch acknowledgment -/

theorem mainRun_eq (cfg : Config) (envOf : Update → Env) (updates : List Update)
    (h : updates ≠ []) :
    mainRun cfg envOf updates =
      ((updates.map (attemptEffects cfg envOf)).flatten).map MainEffect.msg ++
        [MainEffect.ack ((updates.getLast h).update_id + 1)] := by
  rw [mainRun, List.getLast?_eq_getLast updates h]

theorem mainRun_ack_count (cfg : Config) (envOf : Update → Env)
    (updates : List Update) (h : updates ≠ []) :
    (mainRun cfg envOf updates).countP isAckE = 1 := by
  rw [mainRun_eq cfg envOf updates h, List.countP_append]
  have h1 : (((updates.map (attemptEffects cfg envOf)).flatten).map
      MainEffect.msg).countP isAckE = 0 := by
    rw [List.countP_eq_zero]
    intro a ha
    rcases List.mem_map.mp ha with ⟨e, _, rfl⟩
    simp [isAckE]
  rw [h1]
  simp [List.countP_cons, isAckE]

/-- C3: on a non-empty batch, every fetched update is attempted in order
(its effects appear regardless of whether its processing raised), and the
acknowledgment happens exactly once, after all attempts, with offset the
last fetched update's id plus one — for every environment, including ones
where any subset of the messages fail. -/
theorem C3_batch_ack (cfg : Config) (envOf : Update → Env) (updates : List Update)
    (h : updates ≠ []) :
    mainRun cfg envOf updates =
      ((updates.map (attemptEffects cfg envOf)).flatten).map MainEffect.msg ++
        [MainEffect.ack ((updates.getLast h).update_id + 1)] ∧
    (mainRun cfg envOf updates).countP isAckE = 1 :=
  ⟨mainRun_eq cfg envOf updates h, mainRun_ack_count cfg envOf updates h⟩

def cfgNoKeys : Config :=
  { telegramChatId := none, openaiKey := false, exaKey := false, apolloKey := false }

/-- A photo message whose download fails in `envDefault`, so its
processing raises an uncaught exception. -/
def uPhoto : Update :=
  { update_id := 7
    message := some
      { chat := some 5, photo := true, caption := none, voice := false, text := none } }

theorem C3_witness :
    ([uPhoto] ≠ ([] : List Update)) ∧
    (mainRun cfgNoKeys (fun _ => envDefault) [uPhoto]).countP isAckE = 1 ∧
    mainRun cfgNoKeys (fun _ => envDefault) [uPhoto] = [MainEffect.ack 8] ∧
    (process_update cfgNoKeys envDefault uPhoto).2 = true :=
  ⟨by simp,
   (C3_batch_ack cfgNoKeys (fun _ => envDefault) [uPhoto] (by simp)).2,
   by decide, by decide⟩

/-! ### C9: channel allow-list -/

/-- An update that reaches the processing body: it has a message with a
truthy chat id that the allow-list does not block. -/
def allowedChat (cfg : Config) (u : Update) : Bool :=
  match u.message with
  | some m =>
    match m.chat with
    | some chat => decide (chat ≠ 0) && !(blockedChat cfg chat)
    | none => false
  | none => false

theorem process_update_not_allowed (cfg : Config) (env : Env) (u : Update)
    (h : allowedChat cfg u = false) : process_update cfg env u = ([], false) := by
  cases hm : u.message with
  | none => simp [process_update, hm]
  | some m =>
    cases hc : m.chat with
    | none => simp [process_update, hm, hc]
    | some chat =>
      simp only [allowedChat, hm, hc] at h
      by_cases h0 : chat = 0
      · simp [process_update, hm, hc, h0]
      · have hb : blockedChat cfg chat = true := by simpa [h0] using h
        simp [process_update, hm, hc, h0, hb]

/-- C9: with a non-empty allow-listed chat id configured, a message from
a different chat produces no effect at all — no send, no record, no
pipeline stage output — and a batch's per-message effects are exactly the
effects of its allow-passing messages alone, so allow-listed messages are
processed identically whether or not foreign messages share the batch
(the batch acknowledgment still covers every fetched update, by C3's
`mainRun` shape). -/
theorem C9_allowlist (cfg : Config) (envOf : Update → Env) (u : Update)
    (m : TgMessage) (chat : Int) (allow : Str)
    (hm : u.message = some m) (hc : m.chat = some chat)
    (ha : cfg.telegramChatId = some allow) (hneS : allow ≠ [])
    (hdiff : intStr chat ≠ allow) :
    process_update cfg (envOf u) u = ([], false) ∧
    ∀ updates : List Update,
      (updates.map (attemptEffects cfg envOf)).flatten =
        ((updates.filter (allowedChat cfg)).map (attemptEffects cfg envOf)).flatten := by
  have hnall : allowedChat cfg u = false := by
    simp only [allowedChat, hm, hc]
    by_cases h0 : chat = 0
    · simp [h0]
    · have hb : blockedChat cfg chat = true := by
        simp [blockedChat, ha, pyTruthyOpt, pyTruthy, List.isEmpty_iff, hneS, hdiff]
      simp [h0, hb]
  constructor
  · exact process_update_not_allowed cfg (envOf u) u hnall
  · intro updates
    induction updates with
    | nil => rfl
    | cons v vs ih =>
      by_cases hv : allowedChat cfg v
      · simp [List.filter_cons, hv, ih]
      · have hveq : attemptEffects cfg envOf v = [] := by
          unfold attemptEffects
          rw [process_update_not_allowed cfg (envOf v) v (by simpa using hv)]
        simp [List.filter_cons, hv, hveq, ih]

def cfgAllow : Config :=
  { telegramChatId := some ("123".data), openaiKey := false, exaKey := false,
    apolloKey := false }

def mOther : TgMessage :=
  { chat := some 99, photo := false, caption := none, voice := false,
    text := some ("hello".data) }

def uOther : Update := { update_id := 1, message := some mOther }

theorem C9_witness :
    process_update cfgAllow ((fun _ => envDefault) uOther) uOther = ([], false) ∧
    ([uOther].map (attemptEffects cfgAllow (fun _ => envDefault))).flatten =
      (([uOther].filter (allowedChat cfgAllow)).map
        (attemptEffects cfgAllow (fun _ => envDefault))).flatten := by
  have h := C9_allowlist cfgAllow (fun _ => envDefault) uOther mOther 99 ("123".data)
    rfl rfl rfl (by decide) (by decide)
  exact ⟨h.1, h.2 [uOther]⟩

/-! ### C7: extraction failures -/

/-- C7 (amended): for a plain text message, if the extraction response
fails to parse as JSON at all (malformed payload, or a code fence with no
newline), the pipeline aborts with the user-facing apology and no record
is written; if the response parses as valid JSON that is not an object,
processing instead aborts with an uncaught per-message error at the
enrichment gate (`parsed.get("name")`), sending no apology and writing no
record.  Either way the message is still consumed by the batch
acknowledgment. -/
theorem C7_extraction_failure (cfg : Config) (env : Env) (u : Update)
    (m : TgMessage) (chat : Int) (t : Str)
    (hm : u.message = some m) (hc : m.chat = some chat) (h0 : chat ≠ 0)
    (hb : blockedChat cfg chat = false)
    (hp : m.photo = false) (hv : m.voice = false) (ht : m.text = some t)
    (hte : t.isEmpty = false) (hs : ¬ pyStartsWith slashS t) :
    (parse_contact env = JsonOutcome.malformed →
      process_update cfg env u =
        ([Effect.sent chat (processingMsg t), Effect.sent chat parseFailS], false)) ∧
    (parse_contact env = JsonOutcome.nonObject →
      process_update cfg env u = ([Effect.sent chat (processingMsg t)], true)) ∧
    (mainRun cfg (fun _ => env) [u]).countP isAckE = 1 := by
  have hres : resolveRaw cfg env chat m = .note t srcTextS := by
    simp [resolveRaw, hp, hv, ht, hte, hs]
  have hpu : process_update cfg env u = runPipeline cfg env chat t srcTextS := by
    simp [process_update, hm, hc, h0, hb, hres]
  refine ⟨?_, ?_, mainRun_ack_count cfg (fun _ => env) [u] (by simp)⟩
  · intro hparse
    rw [hpu]
    simp [runPipeline, hparse]
  · intro hparse
    rw [hpu]
    simp [runPipeline, hparse]

def noteTextS : Str := "Met Bob from Initech".data

def mTextBob : TgMessage :=
  { chat := some 5, photo := false, caption := none, voice := false,
    text := some noteTextS }

def uBob : Update := { update_id := 3, message := some mTextBob }

/-- An extraction response that is valid JSON but not an object. -/
def envNonObj : Env :=
  { envDefault with
    parseResp := "[1, 2]".data
    jsonOf := fun _ => .nonObject
    notionResp := .ok ("u".data) }

/-- C7 counterexample: when the extraction response parses as a JSON
array — a value that is not the expected structured shape — processing of
the message aborts with an uncaught exception after only the processing
notice: no record is written, but the sender receives no apology either,
refuting the claim that every unparseable-shape response produces a
user-facing apology. -/
theorem C7_counterexample :
    parse_contact envNonObj = JsonOutcome.nonObject ∧
    (process_update cfgNoKeys envNonObj uBob).1 =
      [Effect.sent 5 (processingMsg noteTextS)] ∧
    Effect.sent 5 parseFailS ∉ (process_update cfgNoKeys envNonObj uBob).1 ∧
    (process_update cfgNoKeys envNonObj uBob).1.any isRecordE = false ∧
    (process_update cfgNoKeys envNonObj uBob).2 = true := by
  decide

/-- An extraction response that is not JSON at all. -/
def envMalformed : Env :=
  { envDefault with
    parseResp := "I cannot extract contact details from that".data
    jsonOf := fun _ => .malformed }

theorem C7_witness :
    process_update cfgNoKeys envMalformed uBob =
      ([Effect.sent 5 (processingMsg noteTextS), Effect.sent 5 parseFailS], false) ∧
    (mainRun cfgNoKeys (fun _ => envMalformed) [uBob]).countP isAckE = 1 := by
  have h := C7_extraction_failure cfgNoKeys envMalformed uBob mTextBob 5 noteTextS
    rfl rfl (by decide) (by decide) rfl rfl rfl (by decide) (by decide)
  exact ⟨h.1 (by decide), h.2.2⟩

/-! ### C8: enrichment soft failure -/

/-- C8: when the Apollo search returns a non-success status, the lookup
returns `none` without raising; the pipeline continues through research,
synthesis and persistence, and the created record's `Apollo Enriched`
checkbox is false. -/
theorem C8_enrich_nonsuccess (cfg : Config) (env : Env) (u : Update)
    (m : TgMessage) (chat : Int) (t : Str) (p : ParsedContact) (status : Nat)
    (people : List ApolloPerson) (url : Str)
    (hm : u.message = some m) (hc : m.chat = some chat) (h0 : chat ≠ 0)
    (hb : blockedChat cfg chat = false)
    (hp : m.photo = false) (hv : m.voice = false) (ht : m.text = some t)
    (hte : t.isEmpty = false) (hs : ¬ pyStartsWith slashS t)
    (hparse : parse_contact env = JsonOutcome.object p)
    (hname : pyTruthyOpt p.name = true)
    (hkey : cfg.apolloKey = true)
    (hresp : env.apolloResp = .ok (status, people))
    (hstat : status ≠ 200)
    (hnotion : env.notionResp = .ok url) :
    enrich_with_apollo cfg env (p.name.getD []) p.search_company_domain = .ok none ∧
    process_update cfg env u =
      ([Effect.sent chat (processingMsg t),
        Effect.recordCreated (notionProps p none srcTextS env.today)
          (notionChildren p none t (dossierStage env (exaStage cfg env p) none)),
        Effect.sent chat
          (confirmText p none (dossierStage env (exaStage cfg env p) none) url)],
       false) ∧
    (notionProps p none srcTextS env.today).apolloEnriched = false := by
  have henr : enrich_with_apollo cfg env (p.name.getD []) p.search_company_domain
      = .ok none := by
    simp [enrich_with_apollo, hkey, hresp, hstat]
  have hstage : enrichStage cfg env p = none := by
    simp [enrichStage, hname, henr]
  have hres : resolveRaw cfg env chat m = .note t srcTextS := by
    simp [resolveRaw, hp, hv, ht, hte, hs]
  refine ⟨henr, ?_, rfl⟩
  simp [process_update, hm, hc, h0, hb, hres, runPipeline, hparse, hstage, hnotion]

def pJane : ParsedContact := { emptyParsed with name := some ("Jane Doe".data) }

/-- The enrichment service answers HTTP 500. -/
def env500 : Env :=
  { envDefault with
    parseResp := "x".data
    jsonOf := fun _ => .object pJane
    apolloResp := .ok (500, [])
    notionResp := .ok ("url".data) }

def cfgApollo : Config :=
  { telegramChatId := none, openaiKey := false, exaKey := false, apolloKey := true }

theorem C8_witness :
    enrich_with_apollo cfgApollo env500 (pJane.name.getD [])
      pJane.search_company_domain = .ok none ∧
    (notionProps pJane none srcTextS env500.today).apolloEnriched = false ∧
    (process_update cfgApollo env500 uBob).2 = false := by
  have h := C8_enrich_nonsuccess cfgApollo env500 uBob mTextBob 5 noteTextS pJane
    500 [] ("url".data) rfl rfl (by decide) (by decide) rfl rfl rfl (by decide)
    (by decide) (by decide) (by decide) rfl rfl (by decide) rfl
  exact ⟨h.1, h.2.2, by rw [h.2.1]⟩

end Capture

